import Mathlib

/-
Verification development for the PE resource-directory core of
dissect.executable (src/dissect/executable/pe/helpers/resources.py and
src/dissect/executable/pe/helpers/utils.py).

Bytes are modelled as `List Nat` (each element one byte value), byte offsets
and machine integers as `Nat` with explicit `% 2^32` truncation where the
on-disk serialization matters.  Python object aliasing (the tree leaf, the
bookkeeping record and the manager all referencing the same `Resource` /
data-entry object) is modelled by an arena: the state holds one list of
`Resource` records and both the tree and the bookkeeping list refer to a
resource by its index into that arena.
-/

/-- Little-endian serialization of a 16-bit field. -/
def le16 (n : Nat) : List Nat :=
  [n % 256, n / 256 % 256]

/-- Little-endian serialization of a 32-bit field. -/
def le32 (n : Nat) : List Nat :=
  [n % 256, n / 256 % 256, n / 65536 % 256, n / 16777216 % 256]

/-- Read a little-endian 16-bit value at `pos`; `none` past the end
(a truncated read aborts parsing, resources.py reads via cstruct). -/
def readU16 (bs : List Nat) (pos : Nat) : Option Nat :=
  match bs.drop pos with
  | b0 :: b1 :: _ => some (b0 + b1 * 256)
  | _ => none

/-- Modelled from the spec: `IMAGE_RESOURCE_DIRECTORY` of `c_pe` (the cstruct
definition module is not under src/); a header giving counts of named vs.
id-keyed entries (section 3 of the spec), standard 16-byte layout. -/
structure ImageResourceDirectory where
  Characteristics : Nat
  TimeDateStamp : Nat
  MajorVersion : Nat
  MinorVersion : Nat
  NumberOfNamedEntries : Nat
  NumberOfIdEntries : Nat
deriving DecidableEq

/-- Modelled from the spec: `IMAGE_RESOURCE_DIRECTORY_ENTRY` of `c_pe` (not
under src/); two 32-bit fields, `Name` doubling as id / NameOffset with a
NameIsString high bit, `OffsetToData` doubling as OffsetToDirectory with a
DataIsDirectory high bit (section 3 of the spec). -/
structure ImageResourceDirectoryEntry where
  Name : Nat
  OffsetToData : Nat
deriving DecidableEq

/-- Modelled from the spec: `IMAGE_RESOURCE_DATA_ENTRY` of `c_pe` (not under
src/); address, size and codepage of one resource payload, four 32-bit
fields. -/
structure ImageResourceDataEntry where
  OffsetToData : Nat
  Size : Nat
  CodePage : Nat
  Reserved : Nat
deriving DecidableEq

/-- High bit of `Name`: the entry name is a length-prefixed UTF-16 string. -/
def irdeNameIsString (e : ImageResourceDirectoryEntry) : Bool :=
  e.Name / 2147483648 % 2 = 1

/-- Low 31 bits of `Name`: offset of the UTF-16 name string. -/
def irdeNameOffset (e : ImageResourceDirectoryEntry) : Nat :=
  e.Name % 2147483648

/-- Low 16 bits of `Name`: the numeric id (spec: a 16-bit unsigned id). -/
def irdeId (e : ImageResourceDirectoryEntry) : Nat :=
  e.Name % 65536

/-- High bit of `OffsetToData`: the entry points to a nested directory. -/
def irdeDataIsDirectory (e : ImageResourceDirectoryEntry) : Bool :=
  e.OffsetToData / 2147483648 % 2 = 1

/-- Low 31 bits of `OffsetToData`: offset of the nested directory or of the
data entry. -/
def irdeOffsetToDirectory (e : ImageResourceDirectoryEntry) : Nat :=
  e.OffsetToData % 2147483648

/-- cstruct `dumps()` of a resource directory header (16 bytes, LE). -/
def dumpsDirectory (d : ImageResourceDirectory) : List Nat :=
  le32 d.Characteristics ++ le32 d.TimeDateStamp ++ le16 d.MajorVersion ++
    le16 d.MinorVersion ++ le16 d.NumberOfNamedEntries ++ le16 d.NumberOfIdEntries

/-- cstruct `dumps()` of a directory entry (8 bytes, LE). -/
def dumpsDirEntry (e : ImageResourceDirectoryEntry) : List Nat :=
  le32 e.Name ++ le32 e.OffsetToData

/-- cstruct `dumps()` of a data entry (16 bytes, LE). -/
def dumpsDataEntry (de : ImageResourceDataEntry) : List Nat :=
  le32 de.OffsetToData ++ le32 de.Size ++ le32 de.CodePage ++ le32 de.Reserved

/-- Decode `IMAGE_RESOURCE_DIRECTORY` at `pos` (16 bytes LE); `none` when the
image is too short. -/
def readDirectoryAt (bs : List Nat) (pos : Nat) : Option ImageResourceDirectory :=
  match bs.drop pos with
  | b0 :: b1 :: b2 :: b3 :: b4 :: b5 :: b6 :: b7 :: b8 :: b9 :: b10 :: b11 ::
      b12 :: b13 :: b14 :: b15 :: _ =>
    some { Characteristics := b0 + b1 * 256 + b2 * 65536 + b3 * 16777216,
           TimeDateStamp := b4 + b5 * 256 + b6 * 65536 + b7 * 16777216,
           MajorVersion := b8 + b9 * 256,
           MinorVersion := b10 + b11 * 256,
           NumberOfNamedEntries := b12 + b13 * 256,
           NumberOfIdEntries := b14 + b15 * 256 }
  | _ => none

/-- Decode `IMAGE_RESOURCE_DIRECTORY_ENTRY` at `pos` (8 bytes LE). -/
def readDirEntryAt (bs : List Nat) (pos : Nat) : Option ImageResourceDirectoryEntry :=
  match bs.drop pos with
  | b0 :: b1 :: b2 :: b3 :: b4 :: b5 :: b6 :: b7 :: _ =>
    some { Name := b0 + b1 * 256 + b2 * 65536 + b3 * 16777216,
           OffsetToData := b4 + b5 * 256 + b6 * 65536 + b7 * 16777216 }
  | _ => none

/-- Decode `IMAGE_RESOURCE_DATA_ENTRY` at `pos` (16 bytes LE). -/
def readDataEntryAt (bs : List Nat) (pos : Nat) : Option ImageResourceDataEntry :=
  match bs.drop pos with
  | b0 :: b1 :: b2 :: b3 :: b4 :: b5 :: b6 :: b7 :: b8 :: b9 :: b10 :: b11 ::
      b12 :: b13 :: b14 :: b15 :: _ =>
    some { OffsetToData := b0 + b1 * 256 + b2 * 65536 + b3 * 16777216,
           Size := b4 + b5 * 256 + b6 * 65536 + b7 * 16777216,
           CodePage := b8 + b9 * 256 + b10 * 65536 + b11 * 16777216,
           Reserved := b12 + b13 * 256 + b14 * 65536 + b15 * 16777216 }
  | _ => none

/-- Modelled from the spec: `c_pe.ResourceID(id).name`, the resource-type
enum's symbolic name for a depth-1 numeric id (the enum lives in the `c_pe`
module, not under src/); unknown ids fall back to their decimal
representation (spec 4.1: unknown ids must still be representable). -/
def resourceIDName (n : Nat) : String :=
  match n with
  | 1 => "RT_CURSOR"
  | 2 => "RT_BITMAP"
  | 3 => "RT_ICON"
  | 4 => "RT_MENU"
  | 5 => "RT_DIALOG"
  | 6 => "RT_STRING"
  | 7 => "RT_FONTDIR"
  | 8 => "RT_FONT"
  | 9 => "RT_ACCELERATOR"
  | 10 => "RT_RCDATA"
  | 11 => "RT_MESSAGETABLE"
  | 12 => "RT_GROUP_CURSOR"
  | 14 => "RT_GROUP_ICON"
  | 16 => "RT_VERSION"
  | 17 => "RT_DLGINCLUDE"
  | 19 => "RT_PLUGPLAY"
  | 20 => "RT_VXD"
  | 21 => "RT_ANICURSOR"
  | 22 => "RT_ANIICON"
  | 23 => "RT_HTML"
  | 24 => "RT_MANIFEST"
  | _ => toString n

/-- Read `n` UTF-16 code units (2 bytes each, LE) starting at `pos`. -/
def readUnits (bs : List Nat) (pos : Nat) : Nat → Option (List Nat)
  | 0 => some []
  | n + 1 =>
    match readU16 bs pos with
    | none => none
    | some u =>
      match readUnits bs (pos + 2) n with
      | none => none
      | some rest => some (u :: rest)

/-- Read a 16-bit length-prefixed UTF-16 name string at `off`
(resources.py lines 133-135: seek NameOffset, uint16 length, wchar data). -/
def readName (bs : List Nat) (off : Nat) : Option String :=
  match readU16 bs off with
  | none => none
  | some len =>
    match readUnits bs (off + 2) len with
    | none => none
    | some us => some (String.mk (us.map Char.ofNat))

/-- Failure raised by utils.py helpers (Python `ZeroDivisionError` from the
`%` in `align_data` when `blocksize` is 0). -/
inductive UErr where
  | zeroDivisionError
deriving DecidableEq

/-- utils.align_data: pad `data` with trailing zero bytes to a multiple of
`blocksize`.  Python evaluates `len(data) % blocksize` first, so a zero
blocksize raises `ZeroDivisionError`. -/
def align_data (data : List Nat) (blocksize : Nat) : Except UErr (List Nat) :=
  if blocksize = 0 then Except.error UErr.zeroDivisionError
  else
    let needs_alignment := data.length % blocksize
    if needs_alignment = 0 then Except.ok data
    else Except.ok (data ++ List.replicate (blocksize - needs_alignment) 0)

/-- Resource leaf entity (resources.py class `Resource`).  The Python object
also holds back-references `pe` and `section`; those collaborators are
modelled by the enclosing `PEState` / by passing the container read function
where it is used, so that the record stays first-order.  `entry` is the
decoded `IMAGE_RESOURCE_DATA_ENTRY` the Python object shares with its
bookkeeping record (sharing is modelled by the arena, see `PEState`). -/
structure Resource where
  name : Nat
  entry_offset : Nat
  entry : ImageResourceDataEntry
  rc_type : String
  codepage : Nat
  _size : Nat
  _data : List Nat
deriving DecidableEq

/-- Default used with `List.getD`; Python indexing cannot miss because the
references are object pointers, so the default is never semantically
relevant. -/
def defaultResource : Resource :=
  { name := 0, entry_offset := 0, entry := ⟨0, 0, 0, 0⟩, rc_type := "",
    codepage := 0, _size := 0, _data := [] }

/-- `Resource.data` property getter: returns the cached payload bytes. -/
def Resource.dataGet (r : Resource) : List Nat :=
  r._data

/-- `Resource.size` property getter: `len(self.data)`, recomputed from the
payload on every read. -/
def Resource.sizeGet (r : Resource) : Nat :=
  (Resource.dataGet r).length

/-- `Resource.size` property setter: sets `self._size` and `self.entry.Size`. -/
def Resource.sizeSet (r : Resource) (value : Nat) : Resource :=
  { r with _size := value, entry := { r.entry with Size := value } }

/-- `Resource.offset` property getter: reads `self.entry.OffsetToData`. -/
def Resource.offsetGet (r : Resource) : Nat :=
  r.entry.OffsetToData

/-- `Resource.offset` property setter: writes `self.entry.OffsetToData`. -/
def Resource.offsetSet (r : Resource) (value : Nat) : Resource :=
  { r with entry := { r.entry with OffsetToData := value } }

/-- `Resource.read_data`: `pe.virtual_read(address=self.offset, size=self._size)`.
The container collaborator is modelled as a function from (virtual address,
size) to bytes. -/
def Resource.read_data (container : Nat → Nat → List Nat) (r : Resource) : List Nat :=
  container (Resource.offsetGet r) r._size

/-- `Resource.__init__`.  Sets the identity fields, then
`self._data = self.read_data() if not data else data`: with no caller-supplied
payload (Python: any falsy `data`, including the default `b""`) the payload is
read from the container during construction.  The second component counts the
container reads performed by the constructor (instrumentation for the laziness
claim; the Python code performs one `virtual_read` in the eager branch and
none otherwise). -/
def mkResource (container : Nat → Nat → List Nat) (name entry_offset : Nat)
    (data_entry : ImageResourceDataEntry) (rc_type : String) (data : List Nat) :
    Resource × Nat :=
  let r0 : Resource :=
    { name := name, entry_offset := entry_offset, entry := data_entry,
      rc_type := rc_type, codepage := data_entry.CodePage,
      _size := data_entry.Size, _data := [] }
  if data.isEmpty then ({ r0 with _data := Resource.read_data container r0 }, 1)
  else ({ r0 with _data := data }, 0)

/-- Resource tree node: an insertion-ordered mapping (Python `OrderedDict`)
whose values are either subtrees or `Resource` leaves; a leaf carries the
arena index of its `Resource`. -/
inductive RTree where
  | leaf (ridx : Nat)
  | node (children : List (String × RTree))

/-- One record of the flat bookkeeping list `raw_resources`: a decoded
directory, directory entry, or data entry.  For a data-entry record
(`_handle_data_entry`, lines 89-97) the dict holds the data-entry structure,
the raw payload copy and the owning `Resource`; the structure itself lives in
the owning `Resource` (arena index `ridx`), modelling the Python object
sharing between `rsrc_entry["entry"]` and `rsrc.entry`. -/
inductive RawEntryKind where
  | dir (d : ImageResourceDirectory)
  | dirent (e : ImageResourceDirectoryEntry)
  | dataent (ridx : Nat) (dataCopy : List Nat)

/-- One element of `raw_resources`: original structure offset, the decoded
entry, and the section-relative `data_offset` sort key. -/
structure RawResource where
  offset : Nat
  kind : RawEntryKind
  data_offset : Nat

/-- Default used with `List.getD`; its kind is a directory record, so a
semantically impossible out-of-range index never masquerades as a data
entry. -/
def defaultRaw : RawResource :=
  { offset := 0, kind := RawEntryKind.dir ⟨0, 0, 0, 0, 0, 0⟩, data_offset := 0 }

/-- Manager/PE state: the section collaborator (`virtual_address`, `data`),
the parsed tree (`self.resources`, always an OrderedDict at the root), the
flat bookkeeping list (`self.raw_resources`), the arena of `Resource` objects
(modelling Python heap sharing), and the container's
`optional_header.DataDirectory[IMAGE_DIRECTORY_ENTRY_RESOURCE].Size` field. -/
structure PEState where
  sectionVA : Nat
  sectionData : List Nat
  resources : List (String × RTree)
  raw_resources : List RawResource
  arr : List Resource
  dataDirSize : Nat

/-- Errors surfaced by the manager: `ResourceException` (lookup misses,
exception.py), Python `NotImplementedError` (add/delete), and the
`AttributeError` a non-dict value would raise inside `parse_resources`. -/
inductive RErr where
  | resourceException (msg : String)
  | notImplementedError
  | attributeError
deriving DecidableEq

/-- OrderedDict key lookup (`self.resources[name]`). -/
def lookupKey : List (String × RTree) → String → Option RTree
  | [], _ => none
  | (k0, v) :: rest, k => if k0 = k then some v else lookupKey rest k

/-- OrderedDict key assignment: replace in place when the key exists
(preserving insertion order), append otherwise. -/
def setKey : List (String × RTree) → String → RTree → List (String × RTree)
  | [], k, v => [(k, v)]
  | (k0, v0) :: rest, k, v =>
    if k0 = k then (k0, v) :: rest else (k0, v0) :: setKey rest k v

/-- `ResourceManager.get_resource`: root-level key lookup, raising
`ResourceException` on a miss; the method reads but never writes manager
state, so it returns the state unchanged. -/
def get_resource (st : PEState) (name : String) : Except RErr RTree × PEState :=
  match lookupKey st.resources name with
  | some v => (Except.ok v, st)
  | none => (Except.error (RErr.resourceException ("Resource " ++ name ++ " not found!")), st)

/-- `ResourceManager.parse_resources`: depth-first generator over an
OrderedDict, yielding each non-dict value (a `Resource` leaf, here its arena
index) and recursing into dict values, in insertion order. -/
def parse_resources : List (String × RTree) → List Nat
  | [] => []
  | (_, RTree.leaf i) :: rest => i :: parse_resources rest
  | (_, RTree.node cs) :: rest => parse_resources cs ++ parse_resources rest
termination_by l => sizeOf l
decreasing_by
  all_goals simp_wf
  all_goals omega

mutual
/-- Spec-side definition, following the spec's words for the lookup claim:
"the leaf Resources nested under that key, in the tree's insertion (original
on-disk) order" — a plain depth-first leaf enumeration of a subtree.  To be
compared with `parse_resources`, which is translated from the source. -/
def specLeavesTree : RTree → List Nat
  | RTree.leaf i => [i]
  | RTree.node cs => specLeavesList cs

/-- Spec-side leaf enumeration of an ordered children list (see
`specLeavesTree`). -/
def specLeavesList : List (String × RTree) → List Nat
  | [] => []
  | (_, t) :: rest => specLeavesTree t ++ specLeavesList rest
end

/-- `ResourceManager.get_resource_type`: validate the id is a root key
(raising `ResourceException` otherwise), then yield the leaves under that key
via `parse_resources`.  The Python generator re-walks the tree on every call
and the method writes no manager state, so it is a pure function returning the
state unchanged; a root value that is itself a leaf would make
`parse_resources` call `.items()` on a `Resource` (an `AttributeError`). -/
def get_resource_type (st : PEState) (rsrc_id : String) :
    Except RErr (List Nat) × PEState :=
  match lookupKey st.resources rsrc_id with
  | none =>
    (Except.error (RErr.resourceException
      ("Resource with ID " ++ rsrc_id ++ " not found in PE!")), st)
  | some (RTree.node cs) => (Except.ok (parse_resources cs), st)
  | some (RTree.leaf _) => (Except.error RErr.attributeError, st)

/-- `ResourceManager.add_resource`: `raise NotImplementedError` (lines
232-234), touching no state. -/
def add_resource (st : PEState) (name : String) (data : List Nat) :
    Except RErr Unit × PEState :=
  (Except.error RErr.notImplementedError, st)

/-- `ResourceManager.delete_resource`: `raise NotImplementedError` (lines
236-238), touching no state. -/
def delete_resource (st : PEState) (name : String) :
    Except RErr Unit × PEState :=
  (Except.error RErr.notImplementedError, st)

/-- In-place update of a list element: the functional rendering of mutating
one Python object reachable from a list; out-of-range indices leave the list
unchanged (unreachable for the object references of the source). -/
def listUpd {α : Type} : List α → Nat → (α → α) → List α
  | [], _, _ => []
  | x :: rest, 0, f => f x :: rest
  | x :: rest, n + 1, f => x :: listUpd rest n f

/-- `BytesIO` `seek(pos)` followed by `write(bs)`: zero-fill any gap past the
current end, then overwrite/extend at `pos`. -/
def writeAt (buf : List Nat) (pos : Nat) (bs : List Nat) : List Nat :=
  let padded := buf ++ List.replicate (pos - buf.length) 0
  padded.take pos ++ bs ++ padded.drop (pos + bs.length)

/-- Stable insertion of index `i` into an already-sorted index list: placed
after every index of key ≤ its key, matching Python `sorted` stability. -/
def insertStable (key : Nat → Nat) (i : Nat) : List Nat → List Nat
  | [] => [i]
  | j :: rest => if key j ≤ key i then j :: insertStable key i rest else i :: j :: rest

/-- Stable ascending sort of an index list by `key`: the
`sorted(self.pe.raw_resources, key=lambda rsrc: rsrc["data_offset"])` of the
data setter, acting on indices into the bookkeeping list so that the loop's
in-place record mutations stay visible in the master list. -/
def sortIdx (key : Nat → Nat) (l : List Nat) : List Nat :=
  l.foldl (fun acc i => insertStable key i acc) []

/-- The iteration order of the rebuild loop: bookkeeping-record indices sorted
by ascending (pre-rebuild) `data_offset`. -/
def rebuildOrder (st : PEState) : List Nat :=
  sortIdx (fun k => (st.raw_resources.getD k defaultRaw).data_offset)
    (List.range st.raw_resources.length)

/-- Mutable state of the rebuild loop in the `Resource.data` setter: the
bookkeeping list, the resource arena, `prev_offset`, `prev_size`, and the
`BytesIO` buffer being filled. -/
structure LoopState where
  raw : List RawResource
  arr : List Resource
  po : Nat
  ps : Nat
  buf : List Nat

/-- The gap/overlap test of the data setter (line 404):
`new_data_offset and new_data_offset != data_offset` with Python truthiness
of the integer `new_data_offset`. -/
def repairCond (s : LoopState) (rec0 : RawResource) : Bool :=
  decide (s.po + s.ps ≠ 0 ∧ s.po + s.ps ≠ rec0.data_offset)

/-- One iteration of the rebuild loop (data setter lines 391-422) on record
`k`: a data-entry record may have its `data_offset` repaired to
`prev_offset + prev_size` and its owning Resource's `offset` set to
`section.virtual_address + data_offset`, then its payload is written at
`data_offset` and its (shared, possibly updated) data-entry structure at the
record's structural offset; directory and directory-entry records are written
verbatim at their structural offset. -/
def rebuildStep (va : Nat) (s : LoopState) (k : Nat) : LoopState :=
  let rec0 := s.raw.getD k defaultRaw
  match rec0.kind with
  | RawEntryKind.dir d =>
    { s with buf := writeAt s.buf rec0.offset (dumpsDirectory d) }
  | RawEntryKind.dirent e =>
    { s with buf := writeAt s.buf rec0.offset (dumpsDirEntry e) }
  | RawEntryKind.dataent ridx _ =>
    let newOff := s.po + s.ps
    let doff := if repairCond s rec0 then newOff else rec0.data_offset
    let raw1 := if repairCond s rec0 then
        listUpd s.raw k (fun rr => { rr with data_offset := newOff })
      else s.raw
    let arr1 := if repairCond s rec0 then
        listUpd s.arr ridx (fun r => Resource.offsetSet r (va + newOff))
      else s.arr
    let rsrc := arr1.getD ridx defaultResource
    let buf2 := writeAt (writeAt s.buf doff rsrc._data) rec0.offset
      (dumpsDataEntry rsrc.entry)
    { raw := raw1, arr := arr1, po := doff, ps := rsrc._data.length, buf := buf2 }

/-- The full rebuild loop: fold `rebuildStep` over the sorted record
indices. -/
def rebuildLoop (va : Nat) (s : LoopState) : List Nat → LoopState
  | [] => s
  | k :: rest => rebuildLoop va (rebuildStep va s k) rest

/-- `Resource.data` setter (lines 367-431) on the resource at arena index
`ridx`: cache the new payload, update `Size` when the length changed, run the
rebuild loop over all bookkeeping records sorted by `data_offset` starting
from an empty `BytesIO`, then replace `section.data` and the resource
directory's `DataDirectory` size with the rebuilt buffer / its length. -/
def setData (st : PEState) (ridx : Nat) (value : List Nat) : PEState :=
  let arr0 := listUpd st.arr ridx (fun r =>
    let r1 := { r with _data := value }
    if value.length ≠ r1.entry.Size then Resource.sizeSet r1 value.length else r1)
  let fin := rebuildLoop st.sectionVA
    { raw := st.raw_resources, arr := arr0, po := 0, ps := 0, buf := [] }
    (rebuildOrder st)
  { st with raw_resources := fin.raw, arr := fin.arr,
            sectionData := fin.buf, dataDirSize := fin.buf.length }

/-- Observation of a rebuilt state: for each data-entry record, in the given
index order, its `data_offset` paired with its owning Resource's size
(`len(data)`). -/
def dataPairs (raw : List RawResource) (arr : List Resource) :
    List Nat → List (Nat × Nat)
  | [] => []
  | k :: rest =>
    match (raw.getD k defaultRaw).kind with
    | RawEntryKind.dataent ridx _ =>
      ((raw.getD k defaultRaw).data_offset,
        (arr.getD ridx defaultResource)._data.length) :: dataPairs raw arr rest
    | _ => dataPairs raw arr rest

/-- Packing invariant along a list of (offset, size) pairs: each entry starts
at or after the end of the previous one (`data_offset[i+1] >= data_offset[i]
+ size[i]`), seeded with the loop's initial `prev_offset = prev_size = 0`. -/
def chainFrom (po ps : Nat) : List (Nat × Nat) → Prop
  | [] => True
  | p :: rest => po + ps ≤ p.1 ∧ chainFrom p.1 p.2 rest

/-- Discriminator for data-entry bookkeeping records
(`entry._type.name == "IMAGE_RESOURCE_DATA_ENTRY"`, line 397). -/
def isDataEnt : RawEntryKind → Bool
  | RawEntryKind.dataent _ _ => true
  | _ => false

/-- Parser bookkeeping accumulator: the growing `raw_resources` list and the
arena of constructed `Resource` objects. -/
structure PM where
  raw : List RawResource
  arr : List Resource

/-- Sequentially decode `n` directory entries starting at `pos`
(`_read_entries`, lines 44-63), appending one bookkeeping record per entry
(`offset` and `data_offset` both the entry's cursor position). -/
def readEntries (bs : List Nat) (pos : Nat) (raw : List RawResource) :
    Nat → Option (List ImageResourceDirectoryEntry × List RawResource)
  | 0 => some ([], raw)
  | n + 1 =>
    match readDirEntryAt bs pos with
    | none => none
    | some e =>
      match readEntries bs (pos + 8)
          (raw ++ [{ offset := pos, kind := RawEntryKind.dirent e, data_offset := pos }]) n with
      | none => none
      | some (es, raw2) => some (e :: es, raw2)

/-- Work items of the recursive-descent parser.  `dirJob` is a call of
`_read_resource` (decode a directory at `offset` at depth `level`); `entJob`
is the entry loop inside it, processing the remaining decoded entries with the
children accumulated so far.  The sum type lets the whole recursion be
structural on a fuel argument, so that concrete parses reduce in the
kernel; any fuel at least twice (number of structures + depth) is enough, and
Python's unbounded recursion corresponds to a sufficiently large fuel. -/
inductive ParseJob where
  | dirJob (offset : Nat) (level : Nat) (pm : PM)
  | entJob (level : Nat) (pm : PM) (entries : List ImageResourceDirectoryEntry)
      (acc : List (String × RTree))

/-- The recursive descent of `_read_resource` (lines 100-151): decode the
directory header (appending its bookkeeping record), decode its entries
(appending theirs), then per entry resolve the key (type-enum name at depth 1;
UTF-16 name or decimal id below), and either recurse into the subdirectory at
`OffsetToDirectory` or decode the data entry there (`_handle_data_entry`,
lines 65-98: read the payload from the container, record the section-relative
`data_offset = OffsetToData - virtual_address`, construct the `Resource`, and
append the data-entry bookkeeping record).  `none` is a `ParseError`: a
malformed directory aborts the whole build. -/
def parseRun (container : Nat → Nat → List Nat) (va : Nat) (bs : List Nat) :
    Nat → ParseJob → Option (List (String × RTree) × PM)
  | 0, _ => none
  | fuel + 1, ParseJob.dirJob offset level pm =>
    match readDirectoryAt bs offset with
    | none => none
    | some dir =>
      match readEntries bs (offset + 16)
          (pm.raw ++ [{ offset := offset, kind := RawEntryKind.dir dir, data_offset := offset }])
          (dir.NumberOfNamedEntries + dir.NumberOfIdEntries) with
      | none => none
      | some (entries, raw2) =>
        parseRun container va bs fuel (ParseJob.entJob level ⟨raw2, pm.arr⟩ entries [])
  | _ + 1, ParseJob.entJob _ pm [] acc => some (acc, pm)
  | fuel + 1, ParseJob.entJob level pm (e :: rest) acc =>
    let keyOpt : Option String :=
      if level = 1 then some (resourceIDName (irdeId e))
      else if irdeNameIsString e then readName bs (irdeNameOffset e)
      else some (toString (irdeId e))
    match keyOpt with
    | none => none
    | some key =>
      if irdeDataIsDirectory e then
        match parseRun container va bs fuel
            (ParseJob.dirJob (irdeOffsetToDirectory e) (level + 1) pm) with
        | none => none
        | some (sub, pm1) =>
          parseRun container va bs fuel
            (ParseJob.entJob level pm1 rest (setKey acc key (RTree.node sub)))
      else
        match readDataEntryAt bs (irdeOffsetToDirectory e) with
        | none => none
        | some de =>
          let dataCopy := container de.OffsetToData de.Size
          let rsrc := (mkResource container e.Name e.OffsetToData de key []).1
          let ridx := pm.arr.length
          let pm1 : PM :=
            ⟨pm.raw ++ [{ offset := irdeOffsetToDirectory e,
                          kind := RawEntryKind.dataent ridx dataCopy,
                          data_offset := de.OffsetToData - va }],
             pm.arr ++ [rsrc]⟩
          parseRun container va bs fuel
            (ParseJob.entJob level pm1 rest (setKey acc key (RTree.leaf ridx)))

/-- `ResourceManager.__init__` + `parse_rsrc`: build the tree and the
bookkeeping list from the resource-directory image bytes; the section buffer
and the data-directory size field are taken over from the collaborators
untouched.  `none` is a `ParseError`. -/
def parseManager (container : Nat → Nat → List Nat) (va : Nat)
    (sectionData : List Nat) (dirSize : Nat) (rsrcBytes : List Nat)
    (fuel : Nat) : Option PEState :=
  match parseRun container va rsrcBytes fuel (ParseJob.dirJob 0 1 ⟨[], []⟩) with
  | none => none
  | some (children, pm) =>
    some { sectionVA := va, sectionData := sectionData, resources := children,
           raw_resources := pm.raw, arr := pm.arr, dataDirSize := dirSize }

/-- Concrete resource image used as witness/counterexample input: one root
directory with a single id entry (id 3 = RT_ICON) whose data entry sits at
offset 32, with 8 bytes of non-record filler (as a name string or alignment
padding would be) at 24..32 and a 4-byte payload at section-relative offset
48 (virtual address 4096 + 48 = 4144). -/
def exampleRsrcBytes : List Nat :=
  [0, 0, 0, 0, 0, 0, 0, 0, 0, 0, 0, 0, 0, 0, 1, 0,
   3, 0, 0, 0, 32, 0, 0, 0,
   7, 7, 7, 7, 7, 7, 7, 7,
   48, 16, 0, 0, 4, 0, 0, 0, 0, 0, 0, 0, 0, 0, 0, 0,
   1, 2, 3, 4]

/-- Concrete container collaborator: the payload [1,2,3,4] lives at virtual
address 4144; anything else reads as zero bytes. -/
def exampleContainer : Nat → Nat → List Nat :=
  fun a n => if a = 4144 ∧ n = 4 then [1, 2, 3, 4] else List.replicate n 0

/-- The section's original buffer: identical to the resource image (the
section holds it at its start). -/
def exampleSectionData : List Nat :=
  exampleRsrcBytes

/-- The parse of the concrete example. -/
def exampleParse : Option PEState :=
  parseManager exampleContainer 4096 exampleSectionData 0 exampleRsrcBytes 32

/-- An empty manager state (used as the `getD` default and as a minimal
witness state). -/
def emptyPEState : PEState :=
  { sectionVA := 0, sectionData := [], resources := [], raw_resources := [],
    arr := [], dataDirSize := 0 }

/-- The concrete parsed manager state of the example. -/
def exampleState : PEState :=
  exampleParse.getD emptyPEState

/-- Minimal state with one arena resource, for size-derivation witnesses. -/
def wState2 : PEState :=
  { emptyPEState with arr := [defaultResource] }

/-- Concrete loop state with one data-entry record whose `data_offset` (7)
disagrees with `prev_offset + prev_size` (2 + 3 = 5), for the repair-pass
witness. -/
def wLoopState : LoopState :=
  { raw := [{ offset := 0, kind := RawEntryKind.dataent 0 [], data_offset := 7 }],
    arr := [defaultResource], po := 2, ps := 3, buf := [] }

/-- Concrete depth-2 subtree under the RT_ICON key. -/
def wTreeIcon : RTree :=
  RTree.node [("1", RTree.leaf 0), ("2", RTree.leaf 1)]

/-- Concrete tree with two depth-1 keys and three leaves, for the lookup
witness. -/
def wState6 : PEState :=
  { emptyPEState with
    resources := [("RT_ICON", wTreeIcon), ("RT_VERSION", RTree.node [("3", RTree.leaf 2)])] }

/-- Concrete state whose root has only the key "A", for the not-found
witness. -/
def wState7 : PEState :=
  { emptyPEState with resources := [("A", RTree.leaf 0)] }

/-- Updating index `i` does not change any observation `g` that the update
function `f` preserves, at any index. -/
theorem listUpd_getD_map {α β : Type} (g : α → β) (f : α → α)
    (hf : ∀ a, g (f a) = g a) :
    ∀ (l : List α) (i j : Nat) (d : α),
      g ((listUpd l i f).getD j d) = g (l.getD j d) := by
  intro l
  induction l with
  | nil => intro i j d; simp [listUpd]
  | cons x rest ih =>
    intro i j d
    cases i with
    | zero =>
      cases j with
      | zero => simpa [listUpd] using hf x
      | succ j => simp [listUpd]
    | succ i =>
      cases j with
      | zero => simp [listUpd]
      | succ j => simpa [listUpd] using ih i j d

/-- Updating index `i` leaves every other index unchanged. -/
theorem listUpd_getD_ne {α : Type} (f : α → α) :
    ∀ (l : List α) (i j : Nat) (d : α), j ≠ i →
      (listUpd l i f).getD j d = l.getD j d := by
  intro l
  induction l with
  | nil => intro i j d _; simp [listUpd]
  | cons x rest ih =>
    intro i j d hne
    cases i with
    | zero =>
      cases j with
      | zero => exact absurd rfl hne
      | succ j => simp [listUpd]
    | succ i =>
      cases j with
      | zero => simp [listUpd]
      | succ j => simpa [listUpd] using ih i j d (fun h => hne (by omega))

/-- Updating an in-range index applies `f` at that index. -/
theorem listUpd_getD_self {α : Type} (f : α → α) :
    ∀ (l : List α) (i : Nat) (d : α), i < l.length →
      (listUpd l i f).getD i d = f (l.getD i d) := by
  intro l
  induction l with
  | nil => intro i d h; simp at h
  | cons x rest ih =>
    intro i d h
    cases i with
    | zero => simp [listUpd]
    | succ i => simpa [listUpd] using ih i d (by simpa using h)

/-- A `getD` that reports a data-entry kind is in range: the default record's
kind is a directory. -/
theorem dataent_lt (raw : List RawResource) (k ridx : Nat) (dc : List Nat)
    (h : (raw.getD k defaultRaw).kind = RawEntryKind.dataent ridx dc) :
    k < raw.length := by
  by_contra h'
  rw [List.getD_eq_default raw defaultRaw (by omega)] at h
  simp [defaultRaw] at h

/-- Stable insertion permutes to plain cons. -/
theorem insertStable_perm (key : Nat → Nat) (i : Nat) :
    ∀ l : List Nat, (insertStable key i l).Perm (i :: l) := by
  intro l
  induction l with
  | nil => simp [insertStable]
  | cons j rest ih =>
    simp only [insertStable]
    split
    · exact (ih.cons j).trans (List.Perm.swap i j rest)
    · exact List.Perm.refl _

/-- The insertion-sort fold permutes to the accumulator followed by the
input. -/
theorem sortIdx_fold_perm (key : Nat → Nat) :
    ∀ (l acc : List Nat),
      (List.foldl (fun a i => insertStable key i a) acc l).Perm (acc ++ l) := by
  intro l
  induction l with
  | nil => intro acc; simp
  | cons i rest ih =>
    intro acc
    have h1 := ih (insertStable key i acc)
    have h2 : (insertStable key i acc ++ rest).Perm ((i :: acc) ++ rest) :=
      (insertStable_perm key i acc).append_right rest
    have h3 : ((i :: acc) ++ rest).Perm (acc ++ i :: rest) :=
      List.perm_middle.symm
    exact (h1.trans h2).trans h3

/-- `sortIdx` is a permutation of its input. -/
theorem sortIdx_perm (key : Nat → Nat) (l : List Nat) :
    (sortIdx key l).Perm l := by
  simpa [sortIdx] using sortIdx_fold_perm key l []

/-- The rebuild order is duplicate-free (it permutes `range`). -/
theorem rebuildOrder_nodup (st : PEState) : (rebuildOrder st).Nodup :=
  ((sortIdx_perm _ _).nodup_iff).mpr (List.nodup_range _)

/-- A rebuild step never changes the kind of any bookkeeping record. -/
theorem rebuildStep_kind (va : Nat) (s : LoopState) (k j : Nat) :
    ((rebuildStep va s k).raw.getD j defaultRaw).kind =
      (s.raw.getD j defaultRaw).kind := by
  simp only [rebuildStep]
  split
  · rfl
  · rfl
  · by_cases hc : repairCond s (s.raw.getD k defaultRaw) = true
    · simp only [if_pos hc]
      exact listUpd_getD_map (fun rr => rr.kind)
        (fun rr => { rr with data_offset := s.po + s.ps }) (fun _ => rfl)
        s.raw k j defaultRaw
    · simp only [if_neg hc]

/-- A rebuild step only writes the record it processes. -/
theorem rebuildStep_raw_ne (va : Nat) (s : LoopState) (k j : Nat) (hne : j ≠ k) :
    (rebuildStep va s k).raw.getD j defaultRaw = s.raw.getD j defaultRaw := by
  simp only [rebuildStep]
  split
  · rfl
  · rfl
  · by_cases hc : repairCond s (s.raw.getD k defaultRaw) = true
    · simp only [if_pos hc]
      exact listUpd_getD_ne (fun rr => { rr with data_offset := s.po + s.ps })
        s.raw k j defaultRaw hne
    · simp only [if_neg hc]

/-- A rebuild step never changes any resource's cached payload (the only
resource mutation in the loop is the `offset` setter). -/
theorem rebuildStep_arr_data (va : Nat) (s : LoopState) (k j : Nat) :
    ((rebuildStep va s k).arr.getD j defaultResource)._data =
      (s.arr.getD j defaultResource)._data := by
  simp only [rebuildStep]
  split
  · rfl
  · rfl
  · rename_i ridx dc heq
    by_cases hc : repairCond s (s.raw.getD k defaultRaw) = true
    · simp only [if_pos hc]
      exact listUpd_getD_map (fun r => r._data)
        (fun r => Resource.offsetSet r (va + (s.po + s.ps))) (fun _ => rfl)
        s.arr ridx j defaultResource
    · simp only [if_neg hc]

/-- A rebuild step never changes any resource's `entry.Size` field. -/
theorem rebuildStep_arr_size (va : Nat) (s : LoopState) (k j : Nat) :
    ((rebuildStep va s k).arr.getD j defaultResource).entry.Size =
      (s.arr.getD j defaultResource).entry.Size := by
  simp only [rebuildStep]
  split
  · rfl
  · rfl
  · rename_i ridx dc heq
    by_cases hc : repairCond s (s.raw.getD k defaultRaw) = true
    · simp only [if_pos hc]
      exact listUpd_getD_map (fun r => r.entry.Size)
        (fun r => Resource.offsetSet r (va + (s.po + s.ps))) (fun _ => rfl)
        s.arr ridx j defaultResource
    · simp only [if_neg hc]

/-- On a non-data record a rebuild step only appends bytes to the buffer. -/
theorem rebuildStep_nondata (va : Nat) (s : LoopState) (k : Nat)
    (h : isDataEnt (s.raw.getD k defaultRaw).kind = false) :
    (rebuildStep va s k).raw = s.raw ∧ (rebuildStep va s k).arr = s.arr ∧
      (rebuildStep va s k).po = s.po ∧ (rebuildStep va s k).ps = s.ps := by
  simp only [rebuildStep]
  split
  · exact ⟨rfl, rfl, rfl, rfl⟩
  · exact ⟨rfl, rfl, rfl, rfl⟩
  · rename_i ridx dc heq
    rw [heq] at h
    simp [isDataEnt] at h

/-- Characterization of a rebuild step on a data-entry record: the new
`prev_offset` is the (possibly repaired) `data_offset`, committed into the
record, and the new `prev_size` is the owning resource's payload length. -/
theorem rebuildStep_dataent (va : Nat) (s : LoopState) (k ridx : Nat)
    (dc : List Nat)
    (hk : (s.raw.getD k defaultRaw).kind = RawEntryKind.dataent ridx dc) :
    (rebuildStep va s k).po =
      (if repairCond s (s.raw.getD k defaultRaw) = true then s.po + s.ps
        else (s.raw.getD k defaultRaw).data_offset) ∧
    (rebuildStep va s k).ps =
      ((rebuildStep va s k).arr.getD ridx defaultResource)._data.length ∧
    ((rebuildStep va s k).raw.getD k defaultRaw).data_offset =
      (rebuildStep va s k).po := by
  have hlt : k < s.raw.length := dataent_lt _ _ _ _ hk
  refine ⟨?_, ?_, ?_⟩
  · simp only [rebuildStep, hk]
  · simp only [rebuildStep, hk]
  · simp only [rebuildStep, hk]
    by_cases hc : repairCond s (s.raw.getD k defaultRaw) = true
    · simp only [if_pos hc]
      rw [listUpd_getD_self (fun rr => { rr with data_offset := s.po + s.ps })
        s.raw k defaultRaw hlt]
    · simp only [if_neg hc]

/-- The rebuild loop never changes any record's kind. -/
theorem rebuildLoop_kind (va : Nat) :
    ∀ (order : List Nat) (s : LoopState) (j : Nat),
      ((rebuildLoop va s order).raw.getD j defaultRaw).kind =
        (s.raw.getD j defaultRaw).kind := by
  intro order
  induction order with
  | nil => intro s j; rfl
  | cons k rest ih =>
    intro s j
    simp only [rebuildLoop]
    rw [ih, rebuildStep_kind]

/-- Records whose index is not iterated over keep their value. -/
theorem rebuildLoop_raw_notmem (va : Nat) :
    ∀ (order : List Nat) (s : LoopState) (j : Nat), j ∉ order →
      (rebuildLoop va s order).raw.getD j defaultRaw =
        s.raw.getD j defaultRaw := by
  intro order
  induction order with
  | nil => intro s j _; rfl
  | cons k rest ih =>
    intro s j hj
    have hne : j ≠ k := fun h => hj (by simp [h])
    have hrest : j ∉ rest := fun h => hj (List.mem_cons_of_mem _ h)
    simp only [rebuildLoop]
    rw [ih _ _ hrest, rebuildStep_raw_ne _ _ _ _ hne]

/-- The rebuild loop never changes any resource's cached payload. -/
theorem rebuildLoop_arr_data (va : Nat) :
    ∀ (order : List Nat) (s : LoopState) (j : Nat),
      ((rebuildLoop va s order).arr.getD j defaultResource)._data =
        (s.arr.getD j defaultResource)._data := by
  intro order
  induction order with
  | nil => intro s j; rfl
  | cons k rest ih =>
    intro s j
    simp only [rebuildLoop]
    rw [ih, rebuildStep_arr_data]

/-- The rebuild loop never changes any resource's `entry.Size`. -/
theorem rebuildLoop_arr_size (va : Nat) :
    ∀ (order : List Nat) (s : LoopState) (j : Nat),
      ((rebuildLoop va s order).arr.getD j defaultResource).entry.Size =
        (s.arr.getD j defaultResource).entry.Size := by
  intro order
  induction order with
  | nil => intro s j; rfl
  | cons k rest ih =>
    intro s j
    simp only [rebuildLoop]
    rw [ih, rebuildStep_arr_size]

/-- Core invariant of the offset pass: after running the rebuild loop over a
duplicate-free index list, the surviving (offset, size) pairs of the data
entries, read from the final state in iteration order, are packed: each
starts at or after `prev_offset + prev_size`. -/
theorem rebuildLoop_chain (va : Nat) :
    ∀ (order : List Nat) (s : LoopState), order.Nodup →
      chainFrom s.po s.ps
        (dataPairs (rebuildLoop va s order).raw (rebuildLoop va s order).arr order) := by
  intro order
  induction order with
  | nil => intro s _; simp [rebuildLoop, dataPairs, chainFrom]
  | cons k rest ih =>
    intro s hnd
    have hk_notmem : k ∉ rest := (List.nodup_cons.mp hnd).1
    have hnd' : rest.Nodup := (List.nodup_cons.mp hnd).2
    simp only [rebuildLoop]
    have hkind : ((rebuildLoop va (rebuildStep va s k) rest).raw.getD k defaultRaw).kind =
        (s.raw.getD k defaultRaw).kind := by
      rw [rebuildLoop_kind, rebuildStep_kind]
    cases hks : (s.raw.getD k defaultRaw).kind with
    | dir d =>
      have hfin : ((rebuildLoop va (rebuildStep va s k) rest).raw.getD k defaultRaw).kind =
          RawEntryKind.dir d := by rw [hkind, hks]
      simp only [dataPairs, hfin]
      obtain ⟨hraw, harr, hpo, hps⟩ := rebuildStep_nondata va s k (by rw [hks]; rfl)
      have h := ih (rebuildStep va s k) hnd'
      rw [hpo, hps] at h
      exact h
    | dirent e =>
      have hfin : ((rebuildLoop va (rebuildStep va s k) rest).raw.getD k defaultRaw).kind =
          RawEntryKind.dirent e := by rw [hkind, hks]
      simp only [dataPairs, hfin]
      obtain ⟨hraw, harr, hpo, hps⟩ := rebuildStep_nondata va s k (by rw [hks]; rfl)
      have h := ih (rebuildStep va s k) hnd'
      rw [hpo, hps] at h
      exact h
    | dataent ridx dc =>
      have hfin : ((rebuildLoop va (rebuildStep va s k) rest).raw.getD k defaultRaw).kind =
          RawEntryKind.dataent ridx dc := by rw [hkind, hks]
      simp only [dataPairs, hfin, chainFrom]
      obtain ⟨hpo, hps, hcommit⟩ := rebuildStep_dataent va s k ridx dc hks
      have hrawk : (rebuildLoop va (rebuildStep va s k) rest).raw.getD k defaultRaw =
          (rebuildStep va s k).raw.getD k defaultRaw :=
        rebuildLoop_raw_notmem va rest (rebuildStep va s k) k hk_notmem
      have hdata : ((rebuildLoop va (rebuildStep va s k) rest).arr.getD ridx defaultResource)._data =
          ((rebuildStep va s k).arr.getD ridx defaultResource)._data :=
        rebuildLoop_arr_data va rest (rebuildStep va s k) ridx
      rw [hrawk, hcommit, hdata, ← hps]
      constructor
      · rw [hpo]
        by_cases hp : s.po + s.ps ≠ 0 ∧ s.po + s.ps ≠ (s.raw.getD k defaultRaw).data_offset
        · have hcT : repairCond s (s.raw.getD k defaultRaw) = true := decide_eq_true hp
          rw [if_pos hcT]
        · have hcF : ¬repairCond s (s.raw.getD k defaultRaw) = true :=
            fun h => hp (of_decide_eq_true h)
          rw [if_neg hcF]
          omega
      · exact ih (rebuildStep va s k) hnd'

/-- The generator `parse_resources` enumerates exactly the leaves of the
subtree, depth-first in insertion order: it coincides with the spec-side
enumeration. -/
theorem parse_resources_eq_specLeaves :
    ∀ cs : List (String × RTree), parse_resources cs = specLeavesList cs := by
  intro cs
  induction cs using parse_resources.induct <;>
    simp [parse_resources, specLeavesList, specLeavesTree, *]

/-- With duplicate-free keys, OrderedDict lookup returns the value paired
with the key. -/
theorem lookupKey_of_mem :
    ∀ (cs : List (String × RTree)) (k : String) (t : RTree),
      (cs.map Prod.fst).Nodup → (k, t) ∈ cs → lookupKey cs k = some t := by
  intro cs
  induction cs with
  | nil => intro k t _ h; simp at h
  | cons kv rest ih =>
    intro k t hnd hmem
    obtain ⟨k0, v0⟩ := kv
    rw [List.map_cons] at hnd
    simp only [lookupKey]
    by_cases hk : k0 = k
    · subst hk
      rw [if_pos rfl]
      rcases List.mem_cons.mp hmem with h | h
      · simp only [Prod.mk.injEq] at h
        rw [h.2]
      · exfalso
        have hmap : k0 ∈ rest.map Prod.fst := by
          have := List.mem_map_of_mem Prod.fst h
          simpa using this
        exact (List.nodup_cons.mp hnd).1 hmap
    · rw [if_neg hk]
      rcases List.mem_cons.mp hmem with h | h
      · exfalso
        simp only [Prod.mk.injEq] at h
        exact hk h.1.symm
      · exact ih k t (List.nodup_cons.mp hnd).2 h

/-- The per-key leaf counts add up to the total leaf count of the tree. -/
theorem specLeaves_sum :
    ∀ cs : List (String × RTree),
      (cs.map (fun kv => (specLeavesTree kv.2).length)).sum =
        (specLeavesList cs).length := by
  intro cs
  induction cs with
  | nil => simp [specLeavesList]
  | cons kv rest ih =>
    obtain ⟨k, t⟩ := kv
    simp [specLeavesList, ih]

/-- C9 counterexample: `alignData` is not total over every blocksize — at
blocksize 0 the Python `%` raises `ZeroDivisionError` instead of returning a
padded buffer. -/
theorem c9_align_counterexample :
    align_data [1] 0 = Except.error UErr.zeroDivisionError := rfl

/-- C9 (amended): for every byte string `d` and every blocksize `b >= 1`,
`alignData` succeeds and returns `d` followed by the fewest trailing zero
bytes making the length a multiple of `b` (`d` unchanged when already
aligned); blocksize 0 raises `ZeroDivisionError`. -/
theorem c9_align_amended :
    ∀ (d : List Nat) (b : Nat), 1 ≤ b →
      ∃ r : List Nat, align_data d b = Except.ok r ∧
        d <+: r ∧ (∀ x ∈ r.drop d.length, x = 0) ∧
        r.length % b = 0 ∧ d.length ≤ r.length ∧ r.length < d.length + b ∧
        (d.length % b = 0 → r = d) := by
  intro d b hb
  have hb0 : b ≠ 0 := by omega
  by_cases h0 : d.length % b = 0
  · refine ⟨d, ?_, ⟨[], by simp⟩, ?_, h0, le_refl _, by omega, fun _ => rfl⟩
    · simp [align_data, hb0, h0]
    · simp
  · have hmlt : d.length % b < b := Nat.mod_lt _ (by omega)
    have hdm := Nat.div_add_mod d.length b
    refine ⟨d ++ List.replicate (b - d.length % b) 0, ?_, ⟨_, rfl⟩, ?_, ?_, ?_, ?_,
      fun h => absurd h h0⟩
    · simp [align_data, hb0, h0]
    · intro x hx
      rw [List.drop_left] at hx
      exact List.eq_of_mem_replicate hx
    · have hlen : (d ++ List.replicate (b - d.length % b) 0).length =
          b * (d.length / b + 1) := by
        simp only [List.length_append, List.length_replicate]
        rw [Nat.mul_succ]
        omega
      rw [hlen]
      exact Nat.mul_mod_right _ _
    · simp
    · simp only [List.length_append, List.length_replicate]
      omega

/-- C9 witness: a concrete aligned call through the amended theorem. -/
theorem c9_align_witness :
    (1 : Nat) ≤ 2 ∧
    (∃ r : List Nat, align_data [1, 2, 3] 2 = Except.ok r ∧
      [1, 2, 3] <+: r ∧ (∀ x ∈ r.drop ([1, 2, 3] : List Nat).length, x = 0) ∧
      r.length % 2 = 0 ∧ ([1, 2, 3] : List Nat).length ≤ r.length ∧
      r.length < ([1, 2, 3] : List Nat).length + 2 ∧
      (([1, 2, 3] : List Nat).length % 2 = 0 → r = [1, 2, 3])) :=
  ⟨by decide, c9_align_amended [1, 2, 3] 2 (by decide)⟩

/-- C8: `addResource` and `deleteResource` deterministically fail with the
`NotImplementedError` (the `NotSupported` equivalent) for every input, and
leave the whole manager state untouched. -/
theorem c8_unsupported :
    ∀ (st : PEState) (n : String) (d : List Nat),
      add_resource st n d = (Except.error RErr.notImplementedError, st) ∧
      delete_resource st n = (Except.error RErr.notImplementedError, st) :=
  fun _ _ _ => ⟨rfl, rfl⟩

/-- C10: `Resource.offset` reads and writes exactly the decoded DataEntry's
`OffsetToData` field (so the tree leaf and the bookkeeping record sharing
that DataEntry agree by construction), and re-serializing the DataEntry with
`dumps()` emits any 32-bit offset assigned through the setter. -/
theorem c10_offset_field :
    (∀ r : Resource, Resource.offsetGet r = r.entry.OffsetToData) ∧
    (∀ (r : Resource) (v : Nat),
      (Resource.offsetSet r v).entry.OffsetToData = v ∧
        Resource.offsetGet (Resource.offsetSet r v) = v) ∧
    (∀ (r : Resource) (v : Nat), v < 4294967296 →
      ∃ de : ImageResourceDataEntry,
        readDataEntryAt (dumpsDataEntry (Resource.offsetSet r v).entry) 0 =
            some de ∧
          de.OffsetToData = v) := by
  refine ⟨fun r => rfl, fun r v => ⟨rfl, rfl⟩, ?_⟩
  intro r v hv
  refine ⟨_, rfl, ?_⟩
  show v % 256 + v / 256 % 256 * 256 + v / 65536 % 256 * 65536 +
      v / 16777216 % 256 * 16777216 = v
  omega

/-- C10 witness: a concrete offset assignment and round-trip. -/
theorem c10_offset_witness :
    (Resource.offsetSet defaultResource 123).entry.OffsetToData = 123 ∧
    (∃ de : ImageResourceDataEntry,
      readDataEntryAt (dumpsDataEntry (Resource.offsetSet defaultResource 123).entry) 0 =
          some de ∧
        de.OffsetToData = 123) :=
  ⟨(c10_offset_field.2.1 defaultResource 123).1,
    c10_offset_field.2.2 defaultResource 123 (by norm_num)⟩

/-- C4 counterexample: constructing a `Resource` without a caller-supplied
payload performs a container read already during construction (the
instrumented constructor reports one read, not zero), and the payload is
cached at that point. -/
theorem c4_lazy_counterexample :
    (mkResource (fun _ n => List.replicate n 5) 3 32 ⟨4144, 4, 0, 0⟩ "RT_ICON" []).2 = 1 ∧
    ¬(mkResource (fun _ n => List.replicate n 5) 3 32 ⟨4144, 4, 0, 0⟩ "RT_ICON" []).2 = 0 ∧
    Resource.dataGet
        (mkResource (fun _ n => List.replicate n 5) 3 32 ⟨4144, 4, 0, 0⟩ "RT_ICON" []).1 =
      [5, 5, 5, 5] := by
  refine ⟨rfl, by decide, rfl⟩

/-- C4 (amended): without a caller-supplied payload the constructor reads the
payload from the container eagerly, exactly once
(`virtual_read(OffsetToData, Size)`), and the `data` accessor afterwards
returns those cached bytes. -/
theorem c4_lazy_amended :
    ∀ (c : Nat → Nat → List Nat) (n eo : Nat) (de : ImageResourceDataEntry)
      (rc : String),
      (mkResource c n eo de rc []).2 = 1 ∧
      Resource.dataGet (mkResource c n eo de rc []).1 = c de.OffsetToData de.Size :=
  fun _ _ _ _ _ => ⟨rfl, rfl⟩

/-- C7: for a key absent from the tree root, both `get` and
`resourcesOfType` fail with the lookup `ResourceException` (the spec's
`ResourceNotFound`), surfaced at the call, and return the manager state
unchanged (the pair's second component). -/
theorem c7_not_found :
    ∀ (st : PEState) (k : String), lookupKey st.resources k = none →
      get_resource st k =
        (Except.error (RErr.resourceException ("Resource " ++ k ++ " not found!")), st) ∧
      get_resource_type st k =
        (Except.error (RErr.resourceException
          ("Resource with ID " ++ k ++ " not found in PE!")), st) := by
  intro st k h
  constructor
  · simp [get_resource, h]
  · simp [get_resource_type, h]

/-- C7 witness: a concrete miss on a one-key tree. -/
theorem c7_not_found_witness :
    get_resource wState7 "B" =
      (Except.error (RErr.resourceException ("Resource " ++ "B" ++ " not found!")), wState7) ∧
    get_resource_type wState7 "B" =
      (Except.error (RErr.resourceException
        ("Resource with ID " ++ "B" ++ " not found in PE!")), wState7) :=
  c7_not_found wState7 "B" rfl

/-- C6: on a tree whose root keys are distinct, `resourcesOfType` of a
depth-1 key whose value is a subtree yields exactly the leaves nested under
that key in insertion (on-disk) order — the source generator coincides with
the spec-side leaf enumeration — without touching manager state (it is a
pure re-walk of the tree, hence restartable); and the per-key leaf counts
sum to the total leaf count N of the tree. -/
theorem c6_lookup_correctness :
    (∀ (st : PEState) (k : String) (cs : List (String × RTree)),
      (st.resources.map Prod.fst).Nodup →
      (k, RTree.node cs) ∈ st.resources →
      get_resource_type st k = (Except.ok (specLeavesList cs), st)) ∧
    (∀ cs : List (String × RTree),
      (cs.map (fun kv => (specLeavesTree kv.2).length)).sum =
        (specLeavesList cs).length) := by
  constructor
  · intro st k cs hnd hmem
    have hl := lookupKey_of_mem st.resources k (RTree.node cs) hnd hmem
    simp [get_resource_type, hl, parse_resources_eq_specLeaves]
  · exact specLeaves_sum

/-- C6 witness: both depth-1 keys of a concrete three-leaf tree enumerate
their nested leaves in order, and the counts (2 and 1) sum to N = 3. -/
theorem c6_lookup_witness :
    get_resource_type wState6 "RT_ICON" = (Except.ok [0, 1], wState6) ∧
    get_resource_type wState6 "RT_VERSION" = (Except.ok [2], wState6) ∧
    (wState6.resources.map (fun kv => (specLeavesTree kv.2).length)).sum = 3 := by
  have h1 := c6_lookup_correctness.1 wState6 "RT_ICON"
    [("1", RTree.leaf 0), ("2", RTree.leaf 1)] (by decide)
    (by simp [wState6, emptyPEState, wTreeIcon])
  have h2 := c6_lookup_correctness.1 wState6 "RT_VERSION"
    [("3", RTree.leaf 2)] (by decide)
    (by simp [wState6, emptyPEState, wTreeIcon])
  have h3 := c6_lookup_correctness.2 wState6.resources
  refine ⟨?_, ?_, ?_⟩
  · simpa [specLeavesList, specLeavesTree] using h1
  · simpa [specLeavesList, specLeavesTree] using h2
  · rw [h3]
    simp [wState6, emptyPEState, wTreeIcon, specLeavesList, specLeavesTree]

/-- C2: immediately after `resource.data = v` the resource's `size` reads
`len(v)` and its decoded DataEntry's `Size` field equals `len(v)` (updated
only when it differed); and `size` stays derived from the payload — the
public `size` setter does not change what `size` reads. -/
theorem c2_size_derivation :
    ∀ (st : PEState) (ridx : Nat) (v : List Nat), ridx < st.arr.length →
      Resource.sizeGet ((setData st ridx v).arr.getD ridx defaultResource) = v.length ∧
      ((setData st ridx v).arr.getD ridx defaultResource).entry.Size = v.length ∧
      (∀ (r : Resource) (w : Nat),
        Resource.sizeGet (Resource.sizeSet r w) = Resource.sizeGet r) := by
  intro st ridx v h
  refine ⟨?_, ?_, fun r w => rfl⟩
  · show ((setData st ridx v).arr.getD ridx defaultResource)._data.length = v.length
    simp only [setData]
    rw [rebuildLoop_arr_data]
    dsimp only
    rw [listUpd_getD_self _ st.arr ridx defaultResource h]
    split <;> rfl
  · simp only [setData]
    rw [rebuildLoop_arr_size]
    dsimp only
    rw [listUpd_getD_self _ st.arr ridx defaultResource h]
    split
    · rfl
    · rename_i hsz
      simp only [not_not] at hsz
      exact hsz.symm

/-- C2 witness: a concrete two-byte assignment on a one-resource state. -/
theorem c2_size_witness :
    Resource.sizeGet ((setData wState2 0 [9, 9]).arr.getD 0 defaultResource) = 2 ∧
    ((setData wState2 0 [9, 9]).arr.getD 0 defaultResource).entry.Size = 2 := by
  have h := c2_size_derivation wState2 0 [9, 9] (by decide)
  exact ⟨h.1, h.2.1⟩

/-- C3: after any rebuild triggered by a data assignment, the data-entry
records traversed in the rebuild's ascending `data_offset` order satisfy
`data_offset[i+1] >= data_offset[i] + size[i]` in the resulting state (so the
payloads are non-overlapping and still sorted by `data_offset`); and a gap or
overlap (`prev_offset + prev_size` nonzero and different from the current
`data_offset`) is repaired by reassigning the record's `data_offset` to
`prev_offset + prev_size` and the owning Resource's `offset` to
`section.virtual_address + data_offset`. -/
theorem c3_offset_monotonicity :
    (∀ (st : PEState) (ridx : Nat) (v : List Nat),
      chainFrom 0 0 (dataPairs (setData st ridx v).raw_resources
        (setData st ridx v).arr (rebuildOrder st))) ∧
    (∀ (va : Nat) (s : LoopState) (k ridx : Nat) (dc : List Nat),
      (s.raw.getD k defaultRaw).kind = RawEntryKind.dataent ridx dc →
      s.po + s.ps ≠ 0 →
      s.po + s.ps ≠ (s.raw.getD k defaultRaw).data_offset →
      ridx < s.arr.length →
      ((rebuildStep va s k).raw.getD k defaultRaw).data_offset = s.po + s.ps ∧
        Resource.offsetGet ((rebuildStep va s k).arr.getD ridx defaultResource) =
          va + (s.po + s.ps)) := by
  constructor
  · intro st ridx v
    exact rebuildLoop_chain st.sectionVA (rebuildOrder st)
      { raw := st.raw_resources,
        arr := listUpd st.arr ridx (fun r =>
          let r1 := { r with _data := v }
          if v.length ≠ r1.entry.Size then Resource.sizeSet r1 v.length else r1),
        po := 0, ps := 0, buf := [] }
      (rebuildOrder_nodup st)
  · intro va s k ridx dc hk h0 hne hlt
    have hrep : repairCond s (s.raw.getD k defaultRaw) = true :=
      decide_eq_true ⟨h0, hne⟩
    obtain ⟨hpo, hps, hcommit⟩ := rebuildStep_dataent va s k ridx dc hk
    constructor
    · rw [hcommit, hpo, if_pos hrep]
    · simp only [rebuildStep, hk]
      simp only [if_pos hrep]
      rw [listUpd_getD_self _ s.arr ridx defaultResource hlt]
      rfl

/-- C3 witness: the packing chain on a concrete rebuilt state, and a concrete
repaired record (data_offset 7 with prev 2 + 3 = 5 becomes 5, Resource offset
4096 + 5). -/
theorem c3_offset_witness :
    chainFrom 0 0 (dataPairs (setData emptyPEState 0 []).raw_resources
      (setData emptyPEState 0 []).arr (rebuildOrder emptyPEState)) ∧
    ((rebuildStep 4096 wLoopState 0).raw.getD 0 defaultRaw).data_offset = 5 ∧
    Resource.offsetGet ((rebuildStep 4096 wLoopState 0).arr.getD 0 defaultResource) = 4101 := by
  have h := c3_offset_monotonicity.2 4096 wLoopState 0 0 [] rfl
    (by decide) (by decide) (by decide)
  exact ⟨c3_offset_monotonicity.1 emptyPEState 0 [], h.1, h.2⟩

/-- C1 counterexample: a parsed resource directory (the concrete example,
whose section buffer contains 8 filler bytes at 24..32 not covered by any
decoded structure) where assigning the resource its own current payload
[1,2,3,4] rebuilds a section buffer that is not byte-identical to the
original: the rebuild reserializes only the bookkeeping records into an empty
buffer, zeroing the filler bytes. -/
theorem c1_roundtrip_counterexample :
    exampleParse.isSome = true ∧
    Resource.dataGet (exampleState.arr.getD 0 defaultResource) = [1, 2, 3, 4] ∧
    (setData exampleState 0 [1, 2, 3, 4]).sectionData ≠ exampleState.sectionData := by
  refine ⟨by decide, by decide, by decide⟩

/-- C1 (amended): a manager that performs zero mutations leaves the section
buffer unchanged (parsing never writes it); but a rebuild triggered by
assigning an equal payload regenerates the buffer purely from the bookkeeping
records, independently of the previous buffer contents, so bytes of the
original buffer not covered by any record (name strings, padding) are not
reproduced and byte-identity holds only when the original buffer already
equals that serialization. -/
theorem c1_roundtrip_amended :
    (∀ (c : Nat → Nat → List Nat) (va : Nat) (sd : List Nat) (ds : Nat)
        (bs : List Nat) (fuel : Nat) (st : PEState),
      parseManager c va sd ds bs fuel = some st → st.sectionData = sd) ∧
    (∀ (st : PEState) (d : List Nat) (ridx : Nat) (v : List Nat),
      (setData { st with sectionData := d } ridx v).sectionData =
        (setData st ridx v).sectionData) := by
  constructor
  · intro c va sd ds bs fuel st h
    revert h
    simp only [parseManager]
    cases parseRun c va bs fuel (ParseJob.dirJob 0 1 ⟨[], []⟩) with
    | none => exact fun h => Option.noConfusion h
    | some p =>
      obtain ⟨children, pm⟩ := p
      intro h
      have h2 := Option.some.inj h
      rw [← h2]
  · intro st d ridx v
    rfl

/-- C1 witness: the parsed example's section buffer is the input buffer. -/
theorem c1_roundtrip_witness :
    exampleState.sectionData = exampleSectionData :=
  c1_roundtrip_amended.1 exampleContainer 4096 exampleSectionData 0
    exampleRsrcBytes 32 exampleState rfl

/-- C5 counterexample: in the concrete parsed example the header region
preceding the first resource payload spans the first
`first_resource.offset - section.virtual_address = 48` bytes; after a rebuild
triggered by assigning the current payload, those 48 bytes of the rebuilt
buffer differ from the previous buffer (the filler bytes at 24..32 are
zeroed), so the header region is not copied from the existing buffer. -/
theorem c5_header_counterexample :
    exampleParse.isSome = true ∧
    Resource.offsetGet (exampleState.arr.getD 0 defaultResource) - 4096 = 48 ∧
    List.take 48 ((setData exampleState 0 [1, 2, 3, 4]).sectionData) ≠
      List.take 48 exampleState.sectionData := by
  refine ⟨by decide, by decide, by decide⟩

/-- C5 (amended): the rebuild triggered by a data assignment does not copy
any byte — header region included — from the section's previous buffer: it
writes into an initially empty buffer, reconstructing the header region only
by serializing the decoded directory / entry / data-entry records at their
original offsets, so the resulting buffer is the same whatever the previous
buffer contained. -/
theorem c5_header_amended :
    ∀ (st : PEState) (ridx : Nat) (v : List Nat),
      (setData st ridx v).sectionData =
        (setData { st with sectionData := [] } ridx v).sectionData :=
  fun _ _ _ => rfl
